import Mathlib

/-!
Shallow embedding of src/core/WorkerManager.ts from the
distributed-task-queue repository, together with theorems settling the
specification claims about it.

The WorkerManager class keeps a Map from job-type strings to records
holding a processor function, an array of workers and a maximum worker
count.  We embed the map as an insertion-ordered association list, a
worker-thread handle as a record of the messages the manager has posted
to it, and each method of the class as a state-passing function.  A
method that can throw returns an Except value; the possible failure of
worker construction (environment-dependent in the runtime) is an
explicit Boolean parameter.  Console output is modelled as a list of
log events returned alongside the result, so that the distinct failure
branches of the source stay distinguishable observables.
-/

namespace WorkerManagerModel

/-- Job payloads (jobData has type any in the source); kept as natural
number sentinels so states are decidable. -/
abbrev JobData := Nat

/-- A processor function is stored at registration and later serialised
with toString; we model it by its source text, so serialisation is the
identity. -/
abbrev ProcessorFunction := String

/-- The message posted to a worker by processJob (WorkerManager.ts line
102): an object with exactly the two fields jobType and jobData.  The
correlationId field exists in the model only so that the specification
claim that dispatch messages carry a correlation id can be stated; the
source never sets one, so every message the embedded code constructs has
correlationId = none. -/
structure JobMessage where
  jobType : String
  jobData : JobData
  correlationId : Option Nat
  deriving DecidableEq

/-- The init message posted at spawn time (lines 70-73): type init plus
the serialised processor function. -/
structure InitMessage where
  processorFunction : ProcessorFunction
  deriving DecidableEq

/-- One pending processJob call on a worker: the promise executor
registered with the one-shot message listener (line 103) together with
the message that was posted for it (line 102).  The caller field
identifies the submitting caller, i.e. the promise handle. -/
structure PendingCall where
  caller : Nat
  msg : JobMessage
  deriving DecidableEq

/-- A worker-thread handle as the manager observes it: its creation id,
the init message it received at construction, and the FIFO of posted job
messages whose one-shot listeners have not fired yet (listeners fire in
registration order). -/
structure Worker where
  wid : Nat
  initMsg : InitMessage
  pending : List PendingCall
  deriving DecidableEq

/-- A worker is busy when it has a dispatched job whose response has not
arrived yet. -/
def Worker.busy (w : Worker) : Bool := !w.pending.isEmpty

/-- The record stored in the jobProcessors map (lines 8-12). -/
structure ProcessorInfo where
  processorFunction : ProcessorFunction
  workers : List Worker
  maxWorkers : Int
  deriving DecidableEq

/-- The WorkerManager state: the jobProcessors map, embedded as an
insertion-ordered association list, plus a counter supplying fresh
worker ids (model bookkeeping naming the otherwise anonymous
worker-thread objects). -/
structure WorkerManager where
  jobProcessors : List (String × ProcessorInfo)
  nextWid : Nat
  deriving DecidableEq

/-- A fresh manager: empty registry. -/
def WorkerManager.initial : WorkerManager := { jobProcessors := [], nextWid := 0 }

/-- Map lookup (Map.get / Map.has in the source). -/
def mapGet : List (String × ProcessorInfo) → String → Option ProcessorInfo
  | [], _ => none
  | (k, v) :: rest, t => if k = t then some v else mapGet rest t

/-- Map insertion (Map.set): replaces the value of an existing key in
place, appends a fresh key at the end. -/
def mapSet : List (String × ProcessorInfo) → String → ProcessorInfo →
    List (String × ProcessorInfo)
  | [], t, v => [(t, v)]
  | (k, w) :: rest, t, v =>
    if k = t then (t, v) :: rest else (k, w) :: mapSet rest t v

/-- Map removal (Map.delete). -/
def mapDelete : List (String × ProcessorInfo) → String → List (String × ProcessorInfo)
  | [], _ => []
  | (k, v) :: rest, t =>
    if k = t then mapDelete rest t else (k, v) :: mapDelete rest t

/-- Errors thrown by the methods, one constructor per throw site,
carrying the data interpolated into the thrown message. -/
inductive JsError where
  /-- Thrown at line 24: invalid maxWorkers value, must be greater than 0. -/
  | invalidMaxWorkers (maxWorkers : Int)
  /-- Thrown at lines 57 and 93: no processor registered for job type. -/
  | noProcessorRegistered (jobType : String)
  /-- Thrown at lines 97 and 135: no workers available for job type. -/
  | noWorkersAvailable (jobType : String)
  /-- Thrown at line 79: failed to create worker for job type. -/
  | failedToCreateWorker (jobType : String)
  deriving DecidableEq

/-- Console calls made by the methods, one constructor per call site. -/
inductive LogEvent where
  /-- console.warn at line 28: job type already registered, skipping. -/
  | warnAlreadyRegistered (jobType : String)
  /-- console.error at line 42: failed to spawn initial worker. -/
  | errorInitialSpawnFailed (jobType : String)
  /-- console.warn at line 61: maximum number of workers reached. -/
  | warnMaxWorkersReached (jobType : String)
  /-- console.log at line 76: spawned new worker, with the new total. -/
  | logSpawnedWorker (jobType : String) (total : Nat)
  deriving DecidableEq

/-- Method spawnWorker (lines 54-81).  The parameter spawnOk tells
whether the worker construction and the init postMessage succeed (their
failure depends on the runtime environment); when they fail, the catch
block rethrows failedToCreateWorker and, since workers.push has not yet
run, no mutation has happened, so the error return carries no state. -/
def spawnWorker (spawnOk : Bool) (s : WorkerManager) (jobType : String) :
    Except JsError (Bool × WorkerManager × List LogEvent) :=
  match mapGet s.jobProcessors jobType with
  | none => .error (.noProcessorRegistered jobType)
  | some info =>
    if (info.workers.length : Int) ≥ info.maxWorkers then
      .ok (false, s, [.warnMaxWorkersReached jobType])
    else if spawnOk then
      let w : Worker :=
        { wid := s.nextWid
          initMsg := { processorFunction := info.processorFunction }
          pending := [] }
      let info2 := { info with workers := info.workers ++ [w] }
      .ok (true,
        { jobProcessors := mapSet s.jobProcessors jobType info2
          nextWid := s.nextWid + 1 },
        [.logSpawnedWorker jobType info2.workers.length])
    else
      .error (.failedToCreateWorker jobType)

/-- Method registerJobProcessor (lines 22-46).  Throws when maxWorkers
is not positive; returns false without touching the state when the job
type is already registered; otherwise installs the pool record and tries
to spawn the initial worker, deleting the record again (rollback) and
returning false when that spawn throws. -/
def registerJobProcessor (spawnOk : Bool) (s : WorkerManager) (jobType : String)
    (processorFunction : ProcessorFunction) (maxWorkers : Int) :
    Except JsError (Bool × WorkerManager × List LogEvent) :=
  if maxWorkers ≤ 0 then
    .error (.invalidMaxWorkers maxWorkers)
  else if (mapGet s.jobProcessors jobType).isSome then
    .ok (false, s, [.warnAlreadyRegistered jobType])
  else
    let s1 : WorkerManager :=
      { s with
        jobProcessors := mapSet s.jobProcessors jobType
          { processorFunction := processorFunction
            workers := []
            maxWorkers := maxWorkers } }
    match spawnWorker spawnOk s1 jobType with
    | .ok (_, s2, logs) => .ok (true, s2, logs)
    | .error _ =>
      .ok (false,
        { s1 with jobProcessors := mapDelete s1.jobProcessors jobType },
        [.errorInitialSpawnFailed jobType])

/-- Method getLeastBusyWorker (lines 132-140): despite the name, the
source simply returns workers[0]. -/
def getLeastBusyWorker (s : WorkerManager) (jobType : String) :
    Except JsError Worker :=
  match mapGet s.jobProcessors jobType with
  | none => .error (.noWorkersAvailable jobType)
  | some info =>
    match info.workers with
    | [] => .error (.noWorkersAvailable jobType)
    | w :: _ => .ok w

/-- Replace the first worker of a list by applying f to it.  The source
mutates in place the Worker object returned by getLeastBusyWorker, which
is workers[0]; this helper performs the corresponding write-back. -/
def updateFirstWorker (f : Worker → Worker) : List Worker → List Worker
  | [] => []
  | w :: rest => f w :: rest

/-- Method processJob (lines 90-111), synchronous part: the two checks,
the getLeastBusyWorker selection, the posting of the job message and the
registration of the one-shot response listener.  The caller argument
identifies the returned promise; the later resolution of that promise is
modelled by deliverWorkerMessage.  Returns the id of the worker that
received the message, together with the new state. -/
def processJob (s : WorkerManager) (jobType : String) (caller : Nat)
    (jobData : JobData) : Except JsError (Nat × WorkerManager) :=
  match mapGet s.jobProcessors jobType with
  | none => .error (.noProcessorRegistered jobType)
  | some info =>
    if info.workers.length = 0 then
      .error (.noWorkersAvailable jobType)
    else
      match getLeastBusyWorker s jobType with
      | .error e => .error e
      | .ok w =>
        let pc : PendingCall :=
          { caller := caller
            msg := { jobType := jobType, jobData := jobData, correlationId := none } }
        let info2 :=
          { info with
            workers := updateFirstWorker
              (fun w0 => { w0 with pending := w0.pending ++ [pc] }) info.workers }
        .ok (w.wid, { s with jobProcessors := mapSet s.jobProcessors jobType info2 })

/-- Method getWorkerCount (lines 118-120). -/
def getWorkerCount (s : WorkerManager) (jobType : String) : Nat :=
  match mapGet s.jobProcessors jobType with
  | some info => info.workers.length
  | none => 0

/-- Method canSpawnWorker (lines 127-130).  Note the source returns a
plain Boolean and never throws: an unregistered job type yields false. -/
def canSpawnWorker (s : WorkerManager) (jobType : String) : Bool :=
  match mapGet s.jobProcessors jobType with
  | some info => decide ((info.workers.length : Int) < info.maxWorkers)
  | none => false

/-- A message emitted by a worker back to the manager; the listener at
lines 104-108 reads its error and result fields. -/
structure WorkerReply where
  error : Option String
  result : JobData
  deriving DecidableEq

/-- The terminal outcome the one-shot listener gives the promise of the
caller: rejection with the worker-supplied message, or resolution with
the result. -/
inductive Outcome where
  | resolved (value : JobData)
  | rejected (message : String)
  deriving DecidableEq

/-- Lines 104-108: reject when the reply carries an error, resolve with
the result otherwise. -/
def replyOutcome (r : WorkerReply) : Outcome :=
  match r.error with
  | some e => .rejected e
  | none => .resolved r.result

/-- A worker at position widx of the pool of jobType emitting one
message event.  Each processJob call registers its own one-shot
listener on the same worker object; a single emit fires every listener
registered at that moment (each one-shot wrapper removes itself only
when it fires), so one reply settles every pending call of that worker
at once, all with the same outcome computed from that one reply, and
leaves the worker with no listeners — a later reply finds none and is
dropped.  Returns the settled callers in listener registration order,
each paired with that one outcome; the empty list when the pool or the
worker does not exist or no listener is pending, in which case the
state is unchanged. -/
def deliverWorkerMessage (s : WorkerManager) (jobType : String) (widx : Nat)
    (r : WorkerReply) : List (Nat × Outcome) × WorkerManager :=
  match mapGet s.jobProcessors jobType with
  | none => ([], s)
  | some info =>
    match info.workers[widx]? with
    | none => ([], s)
    | some w =>
      match w.pending with
      | [] => ([], s)
      | pc :: rest =>
        let info2 :=
          { info with workers := info.workers.set widx { w with pending := [] } }
        ((pc :: rest).map (fun p => (p.caller, replyOutcome r)),
          { s with jobProcessors := mapSet s.jobProcessors jobType info2 })

/-- The public operations of the manager, plus the arrival of a worker
message, which is the only other event that changes manager-observable
state. -/
inductive Op where
  | register (spawnOk : Bool) (jobType : String) (pf : ProcessorFunction)
      (maxWorkers : Int)
  | process (jobType : String) (caller : Nat) (jobData : JobData)
  | deliver (jobType : String) (widx : Nat) (reply : WorkerReply)
  | queryCount (jobType : String)
  | queryCanSpawn (jobType : String)

/-- The state after running one operation; a thrown error leaves the
state unchanged, because every throw in the source happens before any
mutation. -/
def applyOp (s : WorkerManager) : Op → WorkerManager
  | .register ok t pf mw =>
    match registerJobProcessor ok s t pf mw with
    | .ok (_, s2, _) => s2
    | .error _ => s
  | .process t c d =>
    match processJob s t c d with
    | .ok (_, s2) => s2
    | .error _ => s
  | .deliver t i r => (deliverWorkerMessage s t i r).2
  | .queryCount _ => s
  | .queryCanSpawn _ => s

/-- The state after a sequence of operations. -/
def applyOps (s : WorkerManager) (ops : List Op) : WorkerManager :=
  ops.foldl applyOp s

/-- States reachable from a fresh manager by public operations. -/
inductive Reachable : WorkerManager → Prop where
  | init : Reachable WorkerManager.initial
  | step {s : WorkerManager} (op : Op) : Reachable s → Reachable (applyOp s op)

/-- Invariant: every registered pool holds exactly one worker and a
positive bound. -/
def PoolInv (s : WorkerManager) : Prop :=
  ∀ t info, mapGet s.jobProcessors t = some info →
    info.workers.length = 1 ∧ 1 ≤ info.maxWorkers

/-- The state after a successful fresh registration: a pool for t with
exactly one idle worker, and the id counter advanced. -/
def registeredState (s : WorkerManager) (t : String) (pf : ProcessorFunction)
    (mw : Int) : WorkerManager :=
  { jobProcessors := mapSet s.jobProcessors t
      { processorFunction := pf
        workers := [{ wid := s.nextWid
                      initMsg := { processorFunction := pf }
                      pending := [] }]
        maxWorkers := mw }
    nextWid := s.nextWid + 1 }

/-- The fresh worker handle constructed by spawnWorker: idle, carrying
the init message with the stored processor function. -/
def newWorker (s : WorkerManager) (info : ProcessorInfo) : Worker :=
  { wid := s.nextWid
    initMsg := { processorFunction := info.processorFunction }
    pending := [] }

/-- The state after a successful spawn for an existing pool: one fresh
idle worker appended at the end. -/
def spawnedState (s : WorkerManager) (t : String) (info : ProcessorInfo) :
    WorkerManager :=
  { jobProcessors := mapSet s.jobProcessors t
      { info with workers := info.workers ++ [newWorker s info] }
    nextWid := s.nextWid + 1 }

/-- The state after a spawnWorker call; on a throw the source has not
yet executed the workers push, so the state is the original. -/
def runSpawnWorker (ok : Bool) (s : WorkerManager) (t : String) : WorkerManager :=
  match spawnWorker ok s t with
  | .ok (_, s2, _) => s2
  | .error _ => s

/-- The state after a dispatch: the first worker of the pool of t gets
the pending call for the given caller and payload appended. -/
def dispatchedState (s : WorkerManager) (t : String) (info : ProcessorInfo)
    (c : Nat) (d : JobData) : WorkerManager :=
  let pc : PendingCall :=
    { caller := c
      msg := { jobType := t, jobData := d, correlationId := none } }
  let addCall : Worker → Worker := fun w0 => { w0 with pending := w0.pending ++ [pc] }
  let info2 : ProcessorInfo := { info with workers := updateFirstWorker addCall info.workers }
  { s with jobProcessors := mapSet s.jobProcessors t info2 }

/-- The state after a worker reply has been consumed: every one-shot
listener of the worker at position widx has fired, so that worker is
left with no pending calls. -/
def broadcastState (s : WorkerManager) (t : String) (info : ProcessorInfo)
    (widx : Nat) (w : Worker) : WorkerManager :=
  let info2 : ProcessorInfo :=
    { info with workers := info.workers.set widx { w with pending := [] } }
  { s with jobProcessors := mapSet s.jobProcessors t info2 }

/-! Concrete states used by witnesses and counterexamples. -/

/-- A fresh manager after one successful registration of a pool named
resize with capacity bound 2: one idle worker with id 0. -/
def sampleManager : WorkerManager :=
  applyOp WorkerManager.initial (.register true "resize" "H" 2)

/-- The pool record sampleManager holds for resize. -/
def sampleInfo : ProcessorInfo :=
  { processorFunction := "H"
    workers := [{ wid := 0, initMsg := { processorFunction := "H" }, pending := [] }]
    maxWorkers := 2 }

/-- The pending call created by the first sample submission. -/
def pcall0 : PendingCall :=
  { caller := 0, msg := { jobType := "resize", jobData := 11, correlationId := none } }

/-- The pending call created by the second sample submission. -/
def pcall1 : PendingCall :=
  { caller := 1, msg := { jobType := "resize", jobData := 22, correlationId := none } }

/-- The sample state after one job has been submitted to the resize
pool: the single worker is busy with one outstanding call. -/
def busyManager : WorkerManager :=
  applyOp sampleManager (.process "resize" 0 11)

/-- The single worker of busyManager. -/
def busyWorker : Worker :=
  { wid := 0, initMsg := { processorFunction := "H" }, pending := [pcall0] }

/-- The pool record busyManager holds for resize. -/
def busyInfo : ProcessorInfo :=
  { processorFunction := "H", workers := [busyWorker], maxWorkers := 2 }

/-- The sample state after a second job has been submitted while the
worker was still busy. -/
def busierManager : WorkerManager :=
  applyOp busyManager (.process "resize" 1 22)

/-- The single worker of busierManager, with two outstanding calls. -/
def busierWorker : Worker :=
  { wid := 0, initMsg := { processorFunction := "H" }, pending := [pcall0, pcall1] }

/-- The pool record busierManager holds for resize. -/
def busierInfo : ProcessorInfo :=
  { processorFunction := "H", workers := [busierWorker], maxWorkers := 2 }

/-- A manager whose single pool, named full, is at capacity: bound 1 and
one worker. -/
def fullManager : WorkerManager :=
  applyOp WorkerManager.initial (.register true "full" "H" 1)

/-- The pool record fullManager holds for full. -/
def fullInfo : ProcessorInfo :=
  { processorFunction := "H"
    workers := [{ wid := 0, initMsg := { processorFunction := "H" }, pending := [] }]
    maxWorkers := 1 }

/-! Lemmas about the association-list map. -/

theorem mapGet_mapSet_self (m : List (String × ProcessorInfo)) (t : String)
    (v : ProcessorInfo) : mapGet (mapSet m t v) t = some v := by
  induction m with
  | nil => simp [mapSet, mapGet]
  | cons kv rest ih =>
    obtain ⟨k, w⟩ := kv
    by_cases hk : k = t <;> simp [mapSet, mapGet, hk, ih]

theorem mapGet_mapSet_ne (m : List (String × ProcessorInfo)) {t t2 : String}
    (h : t ≠ t2) (v : ProcessorInfo) :
    mapGet (mapSet m t v) t2 = mapGet m t2 := by
  induction m with
  | nil => simp [mapSet, mapGet, h]
  | cons kv rest ih =>
    obtain ⟨k, w⟩ := kv
    by_cases hk : k = t
    · subst hk
      simp [mapSet, mapGet, h]
    · simp [mapSet, mapGet, hk, ih]

theorem mapDelete_mapSet_of_none (m : List (String × ProcessorInfo)) (t : String)
    (v : ProcessorInfo) (h : mapGet m t = none) :
    mapDelete (mapSet m t v) t = m := by
  induction m with
  | nil => simp [mapSet, mapDelete]
  | cons kv rest ih =>
    obtain ⟨k, w⟩ := kv
    by_cases hk : k = t
    · subst hk
      simp [mapGet] at h
    · simp only [mapGet, if_neg hk] at h
      simp [mapSet, mapDelete, hk, ih h]

theorem mapSet_mapSet (m : List (String × ProcessorInfo)) (t : String)
    (v v2 : ProcessorInfo) : mapSet (mapSet m t v) t v2 = mapSet m t v2 := by
  induction m with
  | nil => simp [mapSet]
  | cons kv rest ih =>
    obtain ⟨k, w⟩ := kv
    by_cases hk : k = t <;> simp [mapSet, hk, ih]

theorem length_updateFirstWorker (f : Worker → Worker) (l : List Worker) :
    (updateFirstWorker f l).length = l.length := by
  cases l <;> simp [updateFirstWorker]

/-! Characterizations of each method, one per control-flow branch of the
source.  These are the shared basis for the claim theorems and for the
invariant proofs. -/

theorem registerJobProcessor_nonpos (ok : Bool) (s : WorkerManager) (t : String)
    (pf : ProcessorFunction) (mw : Int) (hmw : mw ≤ 0) :
    registerJobProcessor ok s t pf mw = .error (.invalidMaxWorkers mw) := by
  simp [registerJobProcessor, hmw]

theorem registerJobProcessor_already (ok : Bool) (s : WorkerManager) (t : String)
    (pf : ProcessorFunction) (mw : Int) (hmw : ¬ mw ≤ 0)
    (h : (mapGet s.jobProcessors t).isSome = true) :
    registerJobProcessor ok s t pf mw = .ok (false, s, [.warnAlreadyRegistered t]) := by
  simp [registerJobProcessor, hmw, h]

theorem registerJobProcessor_fresh_ok (s : WorkerManager) (t : String)
    (pf : ProcessorFunction) (mw : Int) (hmw : ¬ mw ≤ 0)
    (h : mapGet s.jobProcessors t = none) :
    registerJobProcessor true s t pf mw =
      .ok (true, registeredState s t pf mw, [.logSpawnedWorker t 1]) := by
  have h2 : ¬ ((([] : List Worker).length : Int) ≥ mw) := by simp; omega
  simp [registerJobProcessor, hmw, h, spawnWorker, mapGet_mapSet_self, h2,
    mapSet_mapSet, registeredState]

theorem registerJobProcessor_fresh_fail (s : WorkerManager) (t : String)
    (pf : ProcessorFunction) (mw : Int) (hmw : ¬ mw ≤ 0)
    (h : mapGet s.jobProcessors t = none) :
    registerJobProcessor false s t pf mw =
      .ok (false, s, [.errorInitialSpawnFailed t]) := by
  have h2 : ¬ ((([] : List Worker).length : Int) ≥ mw) := by simp; omega
  simp [registerJobProcessor, hmw, h, spawnWorker, mapGet_mapSet_self, h2,
    mapDelete_mapSet_of_none]

theorem spawnWorker_unregistered (ok : Bool) (s : WorkerManager) (t : String)
    (h : mapGet s.jobProcessors t = none) :
    spawnWorker ok s t = .error (.noProcessorRegistered t) := by
  simp [spawnWorker, h]

theorem spawnWorker_at_capacity (ok : Bool) (s : WorkerManager) (t : String)
    (info : ProcessorInfo) (h : mapGet s.jobProcessors t = some info)
    (hcap : (info.workers.length : Int) ≥ info.maxWorkers) :
    spawnWorker ok s t = .ok (false, s, [.warnMaxWorkersReached t]) := by
  simp [spawnWorker, h, hcap]

theorem spawnWorker_success (s : WorkerManager) (t : String)
    (info : ProcessorInfo) (h : mapGet s.jobProcessors t = some info)
    (hcap : ¬ (info.workers.length : Int) ≥ info.maxWorkers) :
    spawnWorker true s t =
      .ok (true, spawnedState s t info,
        [.logSpawnedWorker t (info.workers.length + 1)]) := by
  simp [spawnWorker, h, hcap, spawnedState, newWorker]

theorem spawnWorker_fail (s : WorkerManager) (t : String)
    (info : ProcessorInfo) (h : mapGet s.jobProcessors t = some info)
    (hcap : ¬ (info.workers.length : Int) ≥ info.maxWorkers) :
    spawnWorker false s t = .error (.failedToCreateWorker t) := by
  simp [spawnWorker, h, hcap]

theorem processJob_unregistered (s : WorkerManager) (t : String) (c : Nat)
    (d : JobData) (h : mapGet s.jobProcessors t = none) :
    processJob s t c d = .error (.noProcessorRegistered t) := by
  simp [processJob, h]

theorem processJob_no_workers (s : WorkerManager) (t : String) (c : Nat)
    (d : JobData) (info : ProcessorInfo)
    (h : mapGet s.jobProcessors t = some info) (hw : info.workers = []) :
    processJob s t c d = .error (.noWorkersAvailable t) := by
  simp [processJob, h, hw]

theorem processJob_dispatch (s : WorkerManager) (t : String) (c : Nat)
    (d : JobData) (info : ProcessorInfo) (w : Worker) (rest : List Worker)
    (h : mapGet s.jobProcessors t = some info) (hw : info.workers = w :: rest) :
    processJob s t c d = .ok (w.wid, dispatchedState s t info c d) := by
  simp [processJob, h, hw, getLeastBusyWorker, dispatchedState, updateFirstWorker]

theorem deliverWorkerMessage_broadcast (s : WorkerManager) (t : String)
    (widx : Nat) (r : WorkerReply) (info : ProcessorInfo) (w : Worker)
    (pc : PendingCall) (rest : List PendingCall)
    (h : mapGet s.jobProcessors t = some info)
    (hw : info.workers[widx]? = some w) (hp : w.pending = pc :: rest) :
    deliverWorkerMessage s t widx r =
      ((pc :: rest).map (fun p => (p.caller, replyOutcome r)),
        broadcastState s t info widx w) := by
  simp [deliverWorkerMessage, h, hw, hp, broadcastState]

/-! Preservation of the pool invariant. -/

theorem poolInv_initial : PoolInv WorkerManager.initial := by
  intro t info h
  simp [WorkerManager.initial, mapGet] at h

theorem poolInv_registeredState {s : WorkerManager} (h : PoolInv s) (t : String)
    (pf : ProcessorFunction) {mw : Int} (hmw : 1 ≤ mw) :
    PoolInv (registeredState s t pf mw) := by
  intro t2 info2 h2
  simp only [registeredState] at h2
  by_cases ht : t = t2
  · subst ht
    rw [mapGet_mapSet_self] at h2
    obtain rfl := Option.some.inj h2
    exact ⟨rfl, hmw⟩
  · rw [mapGet_mapSet_ne _ ht] at h2
    exact h t2 info2 h2

theorem poolInv_dispatchedState {s : WorkerManager} (h : PoolInv s) {t : String}
    {info : ProcessorInfo} (hinfo : mapGet s.jobProcessors t = some info)
    (c : Nat) (d : JobData) : PoolInv (dispatchedState s t info c d) := by
  intro t2 info2 h2
  simp only [dispatchedState] at h2
  by_cases ht : t = t2
  · subst ht
    rw [mapGet_mapSet_self] at h2
    obtain rfl := Option.some.inj h2
    have h3 := h t info hinfo
    simpa [length_updateFirstWorker] using h3
  · rw [mapGet_mapSet_ne _ ht] at h2
    exact h t2 info2 h2

theorem poolInv_broadcastState {s : WorkerManager} (h : PoolInv s) {t : String}
    {info : ProcessorInfo} (hinfo : mapGet s.jobProcessors t = some info)
    (widx : Nat) (w : Worker) : PoolInv (broadcastState s t info widx w) := by
  intro t2 info2 h2
  simp only [broadcastState] at h2
  by_cases ht : t = t2
  · subst ht
    rw [mapGet_mapSet_self] at h2
    obtain rfl := Option.some.inj h2
    have h3 := h t info hinfo
    simpa using h3
  · rw [mapGet_mapSet_ne _ ht] at h2
    exact h t2 info2 h2

theorem poolInv_applyOp {s : WorkerManager} (h : PoolInv s) (op : Op) :
    PoolInv (applyOp s op) := by
  cases op with
  | register ok t pf mw =>
    by_cases hmw : mw ≤ 0
    · simp only [applyOp, registerJobProcessor_nonpos ok s t pf mw hmw]
      exact h
    · by_cases hreg : (mapGet s.jobProcessors t).isSome = true
      · simp only [applyOp, registerJobProcessor_already ok s t pf mw hmw hreg]
        exact h
      · have hnone : mapGet s.jobProcessors t = none := by
          cases hg : mapGet s.jobProcessors t with
          | none => rfl
          | some v => rw [hg] at hreg; simp at hreg
        cases ok with
        | false =>
          simp only [applyOp, registerJobProcessor_fresh_fail s t pf mw hmw hnone]
          exact h
        | true =>
          simp only [applyOp, registerJobProcessor_fresh_ok s t pf mw hmw hnone]
          exact poolInv_registeredState h t pf (by omega)
  | process t c d =>
    cases hg : mapGet s.jobProcessors t with
    | none =>
      simp only [applyOp, processJob_unregistered s t c d hg]
      exact h
    | some info =>
      cases hw : info.workers with
      | nil =>
        simp only [applyOp, processJob_no_workers s t c d info hg hw]
        exact h
      | cons w rest =>
        simp only [applyOp, processJob_dispatch s t c d info w rest hg hw]
        exact poolInv_dispatchedState h hg c d
  | deliver t i r =>
    cases hg : mapGet s.jobProcessors t with
    | none =>
      simp only [applyOp, deliverWorkerMessage, hg]
      exact h
    | some info =>
      cases hw : info.workers[i]? with
      | none =>
        simp only [applyOp, deliverWorkerMessage, hg, hw]
        exact h
      | some w =>
        cases hp : w.pending with
        | nil =>
          simp only [applyOp, deliverWorkerMessage, hg, hw, hp]
          exact h
        | cons pc rest =>
          simp only [applyOp, deliverWorkerMessage_broadcast s t i r info w pc rest hg hw hp]
          exact poolInv_broadcastState h hg i w
  | queryCount t =>
    simpa only [applyOp] using h
  | queryCanSpawn t =>
    simpa only [applyOp] using h

theorem reachable_poolInv {s : WorkerManager} (h : Reachable s) : PoolInv s := by
  induction h with
  | init => exact poolInv_initial
  | step op _ ih => exact poolInv_applyOp ih op

/-! Monotonicity of the worker count. -/

theorem getWorkerCount_applyOp (s : WorkerManager) (op : Op) (t : String) :
    getWorkerCount s t ≤ getWorkerCount (applyOp s op) t := by
  cases op with
  | register ok t2 pf mw =>
    by_cases hmw : mw ≤ 0
    · simp [applyOp, registerJobProcessor_nonpos ok s t2 pf mw hmw]
    · by_cases hreg : (mapGet s.jobProcessors t2).isSome = true
      · simp [applyOp, registerJobProcessor_already ok s t2 pf mw hmw hreg]
      · have hnone : mapGet s.jobProcessors t2 = none := by
          cases hg : mapGet s.jobProcessors t2 with
          | none => rfl
          | some v => rw [hg] at hreg; simp at hreg
        cases ok with
        | false =>
          simp [applyOp, registerJobProcessor_fresh_fail s t2 pf mw hmw hnone]
        | true =>
          simp only [applyOp, registerJobProcessor_fresh_ok s t2 pf mw hmw hnone]
          by_cases ht : t2 = t
          · subst ht
            simp [getWorkerCount, hnone, registeredState, mapGet_mapSet_self]
          · simp [getWorkerCount, registeredState, mapGet_mapSet_ne _ ht]
  | process t2 c d =>
    cases hg : mapGet s.jobProcessors t2 with
    | none => simp [applyOp, processJob_unregistered s t2 c d hg]
    | some info =>
      cases hw : info.workers with
      | nil => simp [applyOp, processJob_no_workers s t2 c d info hg hw]
      | cons w rest =>
        simp only [applyOp, processJob_dispatch s t2 c d info w rest hg hw]
        by_cases ht : t2 = t
        · subst ht
          simp [getWorkerCount, hg, dispatchedState, mapGet_mapSet_self,
            length_updateFirstWorker]
        · simp [getWorkerCount, dispatchedState, mapGet_mapSet_ne _ ht]
  | deliver t2 i r =>
    cases hg : mapGet s.jobProcessors t2 with
    | none => simp [applyOp, deliverWorkerMessage, hg]
    | some info =>
      cases hw : info.workers[i]? with
      | none => simp [applyOp, deliverWorkerMessage, hg, hw]
      | some w =>
        cases hp : w.pending with
        | nil => simp [applyOp, deliverWorkerMessage, hg, hw, hp]
        | cons pc rest =>
          simp only [applyOp, deliverWorkerMessage_broadcast s t2 i r info w pc rest hg hw hp]
          by_cases ht : t2 = t
          · subst ht
            simp [getWorkerCount, hg, broadcastState, mapGet_mapSet_self]
          · simp [getWorkerCount, broadcastState, mapGet_mapSet_ne _ ht]
  | queryCount t2 => simp [applyOp]
  | queryCanSpawn t2 => simp [applyOp]

theorem getWorkerCount_applyOps (s : WorkerManager) (ops : List Op) (t : String) :
    getWorkerCount s t ≤ getWorkerCount (applyOps s ops) t := by
  induction ops generalizing s with
  | nil => exact Nat.le_refl _
  | cons op ops ih =>
    exact Nat.le_trans (getWorkerCount_applyOp s op t) (ih (applyOp s op))

/-! Claim theorems. -/

/-- C1: for every job type that has been successfully registered, and
after every subsequent sequence of public operations, the worker count
of its pool satisfies 1 <= workerCount <= capacityBound at every
observation point.  In every reachable state, a registered job type
(only successful registration leaves a registry entry, since a failed
registration rolls its entry back) has a worker count between 1 and its
maxWorkers bound. -/
theorem registered_pool_count_bounds {s : WorkerManager} (hs : Reachable s)
    (t : String) (info : ProcessorInfo)
    (h : mapGet s.jobProcessors t = some info) :
    1 ≤ getWorkerCount s t ∧ (getWorkerCount s t : Int) ≤ info.maxWorkers := by
  obtain ⟨h1, h2⟩ := reachable_poolInv hs t info h
  constructor
  · simp [getWorkerCount, h, h1]
  · simp only [getWorkerCount, h]
    rw [h1]
    exact_mod_cast h2

/-- Witness for C1 at the state reached by registering the resize pool
with capacity bound 2. -/
theorem registered_pool_count_bounds_check :
    1 ≤ getWorkerCount sampleManager "resize" ∧
    (getWorkerCount sampleManager "resize" : Int) ≤ sampleInfo.maxWorkers :=
  registered_pool_count_bounds
    (Reachable.step (Op.register true "resize" "H" 2) Reachable.init)
    "resize" sampleInfo (by decide)

/-- C2 counterexample: in busyManager the resize pool has capacity
bound 2 and a single worker, which is busy with one outstanding call.
The claim requires the next submission to spawn a second worker and use
it, and says a busy worker is never silently reused.  The source
instead posts the new job to the same busy worker 0: the result names
worker 0, the pool still has exactly one worker afterwards, and that
worker now carries two outstanding calls; no saturation failure and no
queueing elsewhere occur. -/
theorem processJob_busy_reuse_cex :
    getWorkerCount busyManager "resize" = 1 ∧
    canSpawnWorker busyManager "resize" = true ∧
    (mapGet busyManager.jobProcessors "resize").map
      (fun info => info.workers.map Worker.busy) = some [true] ∧
    processJob busyManager "resize" 1 22 = .ok (0, busierManager) ∧
    getWorkerCount busierManager "resize" = 1 ∧
    (mapGet busierManager.jobProcessors "resize").map
      (fun info => info.workers.map (fun w => w.pending.length)) = some [2] :=
  ⟨rfl, rfl, rfl, rfl, rfl, rfl⟩

/-- C2 amended: processJob fails with noProcessorRegistered when the
job type is unregistered and with noWorkersAvailable when the worker
list of the pool is empty; otherwise it always posts the job to the
first worker of the list, regardless of that worker being busy — it
spawns no worker, keeps no wait queue, has no saturation failure, and
leaves the worker count unchanged. -/
theorem processJob_first_worker_dispatch (s : WorkerManager) (t : String)
    (c : Nat) (d : JobData) :
    (mapGet s.jobProcessors t = none →
      processJob s t c d = .error (.noProcessorRegistered t)) ∧
    (∀ info, mapGet s.jobProcessors t = some info → info.workers = [] →
      processJob s t c d = .error (.noWorkersAvailable t)) ∧
    (∀ info w rest, mapGet s.jobProcessors t = some info →
      info.workers = w :: rest →
      processJob s t c d = .ok (w.wid, dispatchedState s t info c d) ∧
      getWorkerCount (dispatchedState s t info c d) t = getWorkerCount s t) := by
  refine ⟨processJob_unregistered s t c d,
    fun info h hw => processJob_no_workers s t c d info h hw, ?_⟩
  intro info w rest h hw
  refine ⟨processJob_dispatch s t c d info w rest h hw, ?_⟩
  simp [getWorkerCount, h, dispatchedState, mapGet_mapSet_self,
    length_updateFirstWorker]

/-- Witness for the amended C2 in the busy sample state: the second
submission is dispatched to the busy worker 0 and the count stays 1. -/
theorem processJob_first_worker_dispatch_check :
    processJob busyManager "resize" 1 22 =
      .ok (busyWorker.wid, dispatchedState busyManager "resize" busyInfo 1 22) ∧
    getWorkerCount (dispatchedState busyManager "resize" busyInfo 1 22) "resize" =
      getWorkerCount busyManager "resize" :=
  (processJob_first_worker_dispatch busyManager "resize" 1 22).2.2
    busyInfo busyWorker [] (by decide) (by decide)

/-- C3 counterexample: the claim says every in-flight request carries a
correlation id unique across the whole system and that the response
bearing it is routed to exactly one caller, each handle resolving with
the result for its own payload.  In the state with two outstanding
submissions to the resize pool (payloads 11 and 22 from callers 0 and
1), every in-flight request carries correlationId = none — no
correlation id exists anywhere in the protocol — and a single worker
reply settles both callers at once with the same outcome: the response
reaches two callers, and caller 1 receives a result that was not
computed for its own payload. -/
theorem inflight_no_correlation_cex :
    processJob sampleManager "resize" 0 11 = .ok (0, busyManager) ∧
    (mapGet busierManager.jobProcessors "resize").map
      (fun info => info.workers.map
        (fun w => w.pending.map (fun p => p.msg.correlationId))) =
      some [[none, none]] ∧
    (deliverWorkerMessage busierManager "resize" 0
        { error := none, result := 99 }).1 =
      [(0, Outcome.resolved 99), (1, Outcome.resolved 99)] :=
  ⟨rfl, rfl, rfl⟩

/-- C3 amended: dispatched requests carry no correlation id and no
routing by id exists.  Each submission registers its own one-shot
listener on the worker, and one worker reply fires every listener then
registered: it settles all pending calls of that worker at once, every
caller receiving the same outcome computed from that single reply, and
leaves the worker with no pending calls, so a later reply is dropped.
With several submissions outstanding on one worker, each caller thus
receives the first reply, not a result tied to its own payload. -/
theorem reply_broadcast_to_all_pending (s : WorkerManager) (t : String)
    (widx : Nat) (r : WorkerReply) (info : ProcessorInfo) (w : Worker)
    (pc : PendingCall) (rest : List PendingCall)
    (h : mapGet s.jobProcessors t = some info)
    (hw : info.workers[widx]? = some w) (hp : w.pending = pc :: rest) :
    deliverWorkerMessage s t widx r =
      ((pc :: rest).map (fun p => (p.caller, replyOutcome r)),
        broadcastState s t info widx w) ∧
    (∀ c o, (c, o) ∈ (deliverWorkerMessage s t widx r).1 → o = replyOutcome r) ∧
    deliverWorkerMessage (broadcastState s t info widx w) t widx r =
      ([], broadcastState s t info widx w) := by
  have e := deliverWorkerMessage_broadcast s t widx r info w pc rest h hw hp
  refine ⟨e, ?_, ?_⟩
  · rw [e]
    intro c o hmem
    simp only [List.mem_map] at hmem
    obtain ⟨p, -, hpe⟩ := hmem
    exact (congrArg Prod.snd hpe).symm
  · have h2 : mapGet (broadcastState s t info widx w).jobProcessors t =
        some { info with workers := info.workers.set widx { w with pending := [] } } := by
      simp [broadcastState, mapGet_mapSet_self]
    have hlt : widx < info.workers.length := (List.getElem?_eq_some_iff.mp hw).1
    have hw2 : (info.workers.set widx { w with pending := [] })[widx]? =
        some { w with pending := [] } := by
      rw [List.getElem?_set_self]
      exact hlt
    simp [deliverWorkerMessage, h2, hw2]

/-- Witness for the amended C3: in busierManager, where worker 0 has
the calls of callers 0 and 1 outstanding, a single reply settles both
callers with the same resolved value, and a second reply arriving
afterwards settles nobody and changes nothing. -/
theorem reply_broadcast_to_all_pending_check :
    deliverWorkerMessage busierManager "resize" 0 { error := none, result := 99 } =
      ([(0, Outcome.resolved 99), (1, Outcome.resolved 99)],
        broadcastState busierManager "resize" busierInfo 0 busierWorker) ∧
    deliverWorkerMessage
        (broadcastState busierManager "resize" busierInfo 0 busierWorker)
        "resize" 0 { error := none, result := 99 } =
      ([], broadcastState busierManager "resize" busierInfo 0 busierWorker) :=
  ⟨(reply_broadcast_to_all_pending busierManager "resize" 0
      { error := none, result := 99 } busierInfo busierWorker pcall0 [pcall1]
      (by decide) (by decide) (by decide)).1,
   (reply_broadcast_to_all_pending busierManager "resize" 0
      { error := none, result := 99 } busierInfo busierWorker pcall0 [pcall1]
      (by decide) (by decide) (by decide)).2.2⟩

/-- C4: a successful register call synchronously spawns exactly one
worker for the new pool; when the initial spawn fails, the registration
is rolled back to exactly the prior state, so no pool entry remains for
the job type, and the call fails, returning false on the branch that
logs the initial-spawn failure. -/
theorem register_spawns_one_or_rolls_back (s : WorkerManager) (t : String)
    (pf : ProcessorFunction) (mw : Int) (hmw : 1 ≤ mw)
    (hnew : mapGet s.jobProcessors t = none) :
    (registerJobProcessor true s t pf mw =
        .ok (true, registeredState s t pf mw, [.logSpawnedWorker t 1]) ∧
      getWorkerCount (registeredState s t pf mw) t = 1) ∧
    (registerJobProcessor false s t pf mw =
        .ok (false, s, [.errorInitialSpawnFailed t]) ∧
      mapGet s.jobProcessors t = none) := by
  refine ⟨⟨registerJobProcessor_fresh_ok s t pf mw (by omega) hnew, ?_⟩,
    registerJobProcessor_fresh_fail s t pf mw (by omega) hnew, hnew⟩
  simp [getWorkerCount, registeredState, mapGet_mapSet_self]

/-- Witness for C4 on a fresh manager with capacity bound 2. -/
theorem register_spawns_one_or_rolls_back_check :
    (registerJobProcessor true WorkerManager.initial "resize" "H" 2 =
        .ok (true, registeredState WorkerManager.initial "resize" "H" 2,
          [.logSpawnedWorker "resize" 1]) ∧
      getWorkerCount (registeredState WorkerManager.initial "resize" "H" 2)
        "resize" = 1) ∧
    (registerJobProcessor false WorkerManager.initial "resize" "H" 2 =
        .ok (false, WorkerManager.initial, [.errorInitialSpawnFailed "resize"]) ∧
      mapGet WorkerManager.initial.jobProcessors "resize" = none) :=
  register_spawns_one_or_rolls_back WorkerManager.initial "resize" "H" 2
    (by decide) (by decide)

/-- C5: for a registered job type, spawnWorker is a no-op returning
false when the worker count equals the capacity bound; below the bound
it sends the init message carrying the stored processor function and
appends the new worker handle only when that send succeeds, so a failed
send leaves the pool unchanged and the call throws
failedToCreateWorker. -/
theorem spawnWorker_capacity_and_handshake (s : WorkerManager) (t : String)
    (info : ProcessorInfo) (h : mapGet s.jobProcessors t = some info) :
    ((info.workers.length : Int) = info.maxWorkers →
      ∀ ok, spawnWorker ok s t = .ok (false, s, [.warnMaxWorkersReached t])) ∧
    ((info.workers.length : Int) < info.maxWorkers →
      spawnWorker true s t =
        .ok (true, spawnedState s t info,
          [.logSpawnedWorker t (info.workers.length + 1)]) ∧
      mapGet (spawnedState s t info).jobProcessors t =
        some { info with workers := info.workers ++ [newWorker s info] } ∧
      (newWorker s info).initMsg.processorFunction = info.processorFunction ∧
      spawnWorker false s t = .error (.failedToCreateWorker t) ∧
      runSpawnWorker false s t = s) := by
  constructor
  · intro hcap ok
    exact spawnWorker_at_capacity ok s t info h (by omega)
  · intro hlt
    have hncap : ¬ (info.workers.length : Int) ≥ info.maxWorkers := by omega
    refine ⟨spawnWorker_success s t info h hncap, ?_, rfl,
      spawnWorker_fail s t info h hncap, ?_⟩
    · simp [spawnedState, mapGet_mapSet_self]
    · simp [runSpawnWorker, spawnWorker_fail s t info h hncap]

/-- Witness for C5: below the bound in the resize sample pool, a failed
worker construction throws and leaves the state unchanged; at the bound
in the full pool, spawn is a no-op returning false. -/
theorem spawnWorker_capacity_and_handshake_check :
    spawnWorker false sampleManager "resize" =
      .error (.failedToCreateWorker "resize") ∧
    runSpawnWorker false sampleManager "resize" = sampleManager ∧
    spawnWorker true fullManager "full" =
      .ok (false, fullManager, [.warnMaxWorkersReached "full"]) :=
  ⟨((spawnWorker_capacity_and_handshake sampleManager "resize" sampleInfo
      (by decide)).2 (by decide)).2.2.2.1,
   ((spawnWorker_capacity_and_handshake sampleManager "resize" sampleInfo
      (by decide)).2 (by decide)).2.2.2.2,
   (spawnWorker_capacity_and_handshake fullManager "full" fullInfo
      (by decide)).1 (by decide) true⟩

/-- C6: with a valid capacity bound, a second register call for an
already registered job type fails on the already-registered branch,
returning false with the corresponding warning, and returns the state
untouched, so the worker count and the stored processor function of the
first pool are unchanged. -/
theorem register_duplicate_left_untouched (ok : Bool) (s : WorkerManager)
    (t : String) (pf2 : ProcessorFunction) (mw : Int) (hmw : 1 ≤ mw)
    (info : ProcessorInfo) (h : mapGet s.jobProcessors t = some info) :
    registerJobProcessor ok s t pf2 mw =
      .ok (false, s, [.warnAlreadyRegistered t]) ∧
    getWorkerCount s t = info.workers.length ∧
    (mapGet s.jobProcessors t).map ProcessorInfo.processorFunction =
      some info.processorFunction := by
  refine ⟨registerJobProcessor_already ok s t pf2 mw (by omega) (by simp [h]),
    ?_, ?_⟩
  · simp [getWorkerCount, h]
  · simp [h]

/-- Witness for C6: re-registering resize with a different processor
function fails and returns the sample state unchanged. -/
theorem register_duplicate_left_untouched_check :
    registerJobProcessor true sampleManager "resize" "H2" 3 =
      .ok (false, sampleManager, [.warnAlreadyRegistered "resize"]) ∧
    getWorkerCount sampleManager "resize" = sampleInfo.workers.length ∧
    (mapGet sampleManager.jobProcessors "resize").map
      ProcessorInfo.processorFunction = some sampleInfo.processorFunction :=
  register_duplicate_left_untouched true sampleManager "resize" "H2" 3
    (by decide) sampleInfo (by decide)

/-- C7: register with a capacity bound below one throws
invalidMaxWorkers and creates no pool: the state, and with it the
registry, is unchanged and no worker is spawned. -/
theorem register_invalid_capacity (ok : Bool) (s : WorkerManager) (t : String)
    (pf : ProcessorFunction) (mw : Int) (hmw : mw < 1) :
    registerJobProcessor ok s t pf mw = .error (.invalidMaxWorkers mw) ∧
    applyOp s (.register ok t pf mw) = s := by
  have e := registerJobProcessor_nonpos ok s t pf mw (by omega)
  exact ⟨e, by simp [applyOp, e]⟩

/-- Witness for C7 with bound 0 on a fresh manager. -/
theorem register_invalid_capacity_check :
    registerJobProcessor true WorkerManager.initial "resize" "H" 0 =
      .error (.invalidMaxWorkers 0) ∧
    applyOp WorkerManager.initial (.register true "resize" "H" 0) =
      WorkerManager.initial :=
  register_invalid_capacity true WorkerManager.initial "resize" "H" 0 (by decide)

/-- C8 counterexample: the claim says canSpawnWorker fails with an
unknown-job-type error when the job type is unregistered.  The source
method never throws, unlike the methods that do signal unknown job
types by throwing: on the unregistered job type missing of a fresh
manager it returns the plain Boolean false — the same value it returns
for the registered pool full at capacity, so no failure distinguishes
an unknown job type from a full pool. -/
theorem canSpawnWorker_unregistered_cex :
    mapGet WorkerManager.initial.jobProcessors "missing" = none ∧
    canSpawnWorker WorkerManager.initial "missing" = false ∧
    mapGet fullManager.jobProcessors "full" = some fullInfo ∧
    canSpawnWorker fullManager "full" = false :=
  ⟨rfl, rfl, by decide, rfl⟩

/-- C8 amended: canSpawnWorker returns false, without failing, when the
job type is unregistered; when it is registered it returns true exactly
when the worker count is strictly below the capacity bound. -/
theorem canSpawnWorker_true_iff (s : WorkerManager) (t : String) :
    canSpawnWorker s t = true ↔
      ∃ info, mapGet s.jobProcessors t = some info ∧
        (info.workers.length : Int) < info.maxWorkers := by
  cases hg : mapGet s.jobProcessors t with
  | none => simp [canSpawnWorker, hg]
  | some info => simp [canSpawnWorker, hg]

/-- C9: for every registered job type of a reachable state the pool has
at least one worker, so the no-workers-available error branches in
processJob and getLeastBusyWorker are unreachable for registered job
types: registration only succeeds once the first worker is spawned, and
no later operation removes a worker. -/
theorem no_workers_error_unreachable {s : WorkerManager} (hs : Reachable s)
    (t : String) (info : ProcessorInfo)
    (h : mapGet s.jobProcessors t = some info) (c : Nat) (d : JobData) :
    1 ≤ info.workers.length ∧
    processJob s t c d ≠ .error (.noWorkersAvailable t) ∧
    getLeastBusyWorker s t ≠ .error (.noWorkersAvailable t) := by
  obtain ⟨h1, h2⟩ := reachable_poolInv hs t info h
  obtain ⟨w, hw⟩ := List.length_eq_one.mp h1
  refine ⟨by omega, ?_, ?_⟩
  · rw [processJob_dispatch s t c d info w [] h (by rw [hw])]
    simp
  · simp [getLeastBusyWorker, h, hw]

/-- Witness for C9 in the freshly registered sample state. -/
theorem no_workers_error_unreachable_check :
    1 ≤ sampleInfo.workers.length ∧
    processJob sampleManager "resize" 0 5 ≠
      .error (.noWorkersAvailable "resize") ∧
    getLeastBusyWorker sampleManager "resize" ≠
      .error (.noWorkersAvailable "resize") :=
  no_workers_error_unreachable
    (Reachable.step (Op.register true "resize" "H" 2) Reachable.init)
    "resize" sampleInfo (by decide) 0 5

/-- C10: worker membership is append-only: no public operation removes
or terminates a worker (the manager exposes no terminate operation), so
for every job type the worker count is monotonically non-decreasing
across every sequence of public operations. -/
theorem worker_count_monotone (s : WorkerManager) (ops : List Op) (t : String) :
    getWorkerCount s t ≤ getWorkerCount (applyOps s ops) t :=
  getWorkerCount_applyOps s ops t

end WorkerManagerModel
